import Mathlib

/-!
Verification development for the string-analyzer service (src/server.js).

JavaScript strings are modelled as lists of UTF-16 code units (`List Nat`,
each element a 16-bit code unit).  `String.length`, `split('')` and string
equality in JavaScript operate on this unit sequence, while `for...of`
iteration and `new Set(str)` operate on the decoded code-point sequence;
both views are modelled explicitly below.
-/

/-- A JavaScript string: its sequence of UTF-16 code units. -/
abbrev JsString := List Nat

/-- Embed a Lean string literal (BMP characters only) as a JS unit list:
each BMP code point is a single UTF-16 unit. -/
def jsStr (s : String) : JsString := s.data.map Char.toNat

/-- The code points matched by the JavaScript regular-expression class `\s`
(the set used by `replace(/\s/g,'')`, `split(/\s+/)`, `trim()`). -/
def jsWsChars : List Nat :=
  [0x9, 0xA, 0xB, 0xC, 0xD, 0x20, 0xA0, 0x1680,
   0x2000, 0x2001, 0x2002, 0x2003, 0x2004, 0x2005, 0x2006, 0x2007,
   0x2008, 0x2009, 0x200A, 0x2028, 0x2029, 0x202F, 0x205F, 0x3000, 0xFEFF]

def isJsWhitespace (u : Nat) : Bool := jsWsChars.contains u

def isAsciiDigit (u : Nat) : Bool := 0x30 ≤ u && u ≤ 0x39

def isHighSurrogate (u : Nat) : Bool := 0xD800 ≤ u && u ≤ 0xDBFF

def isLowSurrogate (u : Nat) : Bool := 0xDC00 ≤ u && u ≤ 0xDFFF

/-- Decode a UTF-16 unit sequence into the code-point sequence that
JavaScript `for...of` / `new Set` / spread iteration produces: a high
surrogate followed by a low surrogate combine into one supplementary code
point; any other unit (including a lone surrogate) passes through. -/
def codePoints : List Nat → List Nat
  | [] => []
  | [u] => [u]
  | u1 :: u2 :: rest =>
    if isHighSurrogate u1 && isLowSurrogate u2 then
      (0x10000 + (u1 - 0xD800) * 0x400 + (u2 - 0xDC00)) :: codePoints rest
    else
      u1 :: codePoints (u2 :: rest)

/-- One unit of `toLowerCase`, modelled on the ASCII range (A-Z ↦ a-z,
every other unit unchanged).  No input appearing in this development
contains a non-ASCII cased letter, so this agrees with JavaScript
`toLowerCase` on everything the theorems below touch. -/
def jsLowerUnit (u : Nat) : Nat :=
  if 0x41 ≤ u && u ≤ 0x5A then u + 0x20 else u

/-- `str.toLowerCase()`. -/
def jsToLower (s : JsString) : JsString := s.map jsLowerUnit

/-- JavaScript `Set.prototype.add`: append the element unless present. -/
def setAdd (s : List Nat) (c : Nat) : List Nat :=
  if c ∈ s then s else s ++ [c]

/-- The elements of `new Set(str)` in insertion order (first occurrence
of each distinct code point). -/
def jsSetElems (cps : List Nat) : List Nat := cps.foldl setAdd []

/-- One step of building the character-frequency object:
`charFreqMap[char] = (charFreqMap[char] || 0) + 1`, over an association
list in JavaScript-object insertion order. -/
def bump (m : List (Nat × Nat)) (c : Nat) : List (Nat × Nat) :=
  match m with
  | [] => [(c, 1)]
  | (k, v) :: rest => if k = c then (k, v + 1) :: rest else (k, v) :: bump rest c

/-- `str.trim()`: strip leading and trailing `\s` units. -/
def jsTrim (s : JsString) : JsString :=
  ((s.dropWhile isJsWhitespace).reverse.dropWhile isJsWhitespace).reverse

mutual
/-- `split(/\s+/)` scanning inside a token: accumulate non-whitespace
units until a whitespace run (separator) or the end of input. -/
def splitTok : List Nat → List Nat → List (List Nat)
  | [], cur => [cur.reverse]
  | u :: r, cur =>
    if isJsWhitespace u then cur.reverse :: splitSep r
    else splitTok r (u :: cur)

/-- `split(/\s+/)` scanning inside a separator run: skip further
whitespace, then start the next token (an empty token if input ends). -/
def splitSep : List Nat → List (List Nat)
  | [] => [[]]
  | u :: r => if isJsWhitespace u then splitSep r else splitTok r [u]
end

/-- `str.split(/\s+/)`. -/
def splitWsRuns (s : JsString) : List (List Nat) := splitTok s []

/-- The property record computed for each stored string
(`computeProperties` in src/server.js).  `length` is the UTF-16 unit
count (JavaScript `str.length`); `unique_characters` and
`character_frequency_map` are over the code-point sequence
(`new Set(str)` and `for (const char of str)`). -/
structure Properties where
  length : Nat
  is_palindrome : Bool
  unique_characters : Nat
  word_count : Nat
  sha256_hash : JsString
  character_frequency_map : List (Nat × Nat)
deriving DecidableEq

/-- `computeProperties(str)` from src/server.js.  The SHA-256 digest
(`crypto.createHash('sha256')...digest('hex')`) is abstracted as the
function parameter `hash`; every other field is computed concretely. -/
def computeProperties (hash : JsString → JsString) (str : JsString) : Properties :=
  let sha256 := hash str
  let normalized := (jsToLower str).filter (fun u => !(isJsWhitespace u))
  let isPalindrome := normalized == normalized.reverse
  let cps := codePoints str
  let uniqueChars := (jsSetElems cps).length
  let wordCount :=
    ((splitWsRuns (jsTrim str)).filter (fun w => 0 < w.length)).length
  let charFreqMap := cps.foldl bump []
  { length := str.length
    is_palindrome := isPalindrome
    unique_characters := uniqueChars
    word_count := wordCount
    sha256_hash := sha256
    character_frequency_map := charFreqMap }

/-! ## Natural-language interpreter (`parseNaturalLanguage`)

Each regular expression used by the interpreter is modelled directly as a
matcher over the lowercased unit sequence.  `regexScan` reproduces the
leftmost-match search of `String.prototype.match`: the per-position matcher
is attempted at every start index from the left, with all of its internal
alternation and optional-group backtracking tried before moving on. -/

/-- Try a per-position matcher at every suffix, leftmost first
(semantics of an unanchored JavaScript regex search). -/
def regexScan (f : List Nat → Option α) : List Nat → Option α
  | [] => f []
  | u :: r =>
    match f (u :: r) with
    | some x => some x
    | none => regexScan f r

/-- `hay.includes(needle)` on unit sequences. -/
def includesSub (needle : JsString) : JsString → Bool
  | [] => needle.isPrefixOf ([] : List Nat)
  | u :: r => needle.isPrefixOf (u :: r) || includesSub needle r

/-- Match a literal at the front, returning the rest. -/
def litPrefix (pat : List Nat) (l : List Nat) : Option (List Nat) :=
  if pat.isPrefixOf l then some (l.drop pat.length) else none

/-- Match `\s+` (one or more whitespace units, greedily). -/
def wsPlus (l : List Nat) : Option (List Nat) :=
  match l with
  | [] => none
  | u :: r => if isJsWhitespace u then some (r.dropWhile isJsWhitespace) else none

/-- Digits of a decimal capture, folded to the value `parseInt` gives it. -/
def digitsVal (ds : List Nat) : Nat :=
  ds.foldl (fun a u => a * 10 + (u - 0x30)) 0

/-- Per-position matcher for `/(\d+)\s+word/`: a digit run, whitespace,
then the literal `word`; capture is the digit run's value.  (`\d+` and
`\s+` are greedy; no backtracking is needed because a digit can never
satisfy `\s` and a whitespace unit can never begin `word`.) -/
def matchDigitsWordAt (l : List Nat) : Option Nat :=
  let ds := l.takeWhile isAsciiDigit
  if ds.isEmpty then none
  else
    match wsPlus (l.dropWhile isAsciiDigit) with
    | none => none
    | some r => if (jsStr "word").isPrefixOf r then some (digitsVal ds) else none

/-- Per-position matcher for `/longer than (\d+)/` and
`/shorter than (\d+)/`: the literal followed by a digit run. -/
def matchLitDigitsAt (pat : JsString) (l : List Nat) : Option Nat :=
  match litPrefix pat l with
  | none => none
  | some r =>
    let ds := r.takeWhile isAsciiDigit
    if ds.isEmpty then none else some (digitsVal ds)

def isLowerAlpha (u : Nat) : Bool := 0x61 ≤ u && u ≤ 0x7A

/-- `([a-z])` at the head of the remaining input. -/
def captureAlpha : List Nat → Option Nat
  | [] => none
  | u :: _ => if isLowerAlpha u then some u else none

/-- `(?:letter\s+)?([a-z])`: try the optional `letter` group first, then
fall back to matching the capture directly (regex optional-group
backtracking). -/
def afterTheGroup (l : List Nat) : Option Nat :=
  match litPrefix (jsStr "letter") l with
  | some r =>
    match wsPlus r with
    | some r2 =>
      match captureAlpha r2 with
      | some c => some c
      | none => captureAlpha l
    | none => captureAlpha l
  | none => captureAlpha l

/-- `(?:the\s+)?(?:letter\s+)?([a-z])`. -/
def afterWsGroup (l : List Nat) : Option Nat :=
  match litPrefix (jsStr "the") l with
  | some r =>
    match wsPlus r with
    | some r2 =>
      match afterTheGroup r2 with
      | some c => some c
      | none => afterTheGroup l
    | none => afterTheGroup l
  | none => afterTheGroup l

/-- `\s+(?:the\s+)?(?:letter\s+)?([a-z])` — tail shared by the three
`contain`/`containing`/`contains` alternatives. -/
def containTail (l : List Nat) : Option Nat :=
  match wsPlus l with
  | none => none
  | some r => afterWsGroup r

/-- Per-position matcher for
`/contain(?:ing|s)?\s+(?:the\s+)?(?:letter\s+)?([a-z])/`: the alternation
`ing`, `s`, empty is tried in that order, each with the full tail. -/
def matchContainAt (l : List Nat) : Option Nat :=
  match litPrefix (jsStr "contain") l with
  | none => none
  | some r =>
    match
      (match litPrefix (jsStr "ing") r with
       | some r2 => containTail r2
       | none => none) with
    | some c => some c
    | none =>
      match
        (match litPrefix (jsStr "s") r with
         | some r2 => containTail r2
         | none => none) with
      | some c => some c
      | none => containTail r

/-- The structured filter assembled by the interpreter (and by the query
endpoint).  Integer fields are `Int` because they come from `parseInt`
arithmetic (`shorter than 0` yields `max_length = -1`). -/
structure Filters where
  word_count : Option Int
  is_palindrome : Option Bool
  min_length : Option Int
  max_length : Option Int
  contains_character : Option Nat
deriving DecidableEq

/-- `Object.keys(filters).length === 0`. -/
def Filters.isEmptyF (f : Filters) : Bool :=
  f.word_count.isNone && f.is_palindrome.isNone && f.min_length.isNone &&
    f.max_length.isNone && f.contains_character.isNone

/-- `parseNaturalLanguage(query)` from src/server.js: lowercase the query,
then apply the pattern rules in source order.  The `first vowel` rule runs
last and overwrites any `contains_character` the `contain...` rule set. -/
def parseNaturalLanguage (query : JsString) : Filters :=
  let lowerQuery := jsToLower query
  let wordCount : Option Int :=
    if includesSub (jsStr "single word") lowerQuery then some 1
    else
      match regexScan matchDigitsWordAt lowerQuery with
      | some n => some (Int.ofNat n)
      | none => none
  let isPal : Option Bool :=
    if includesSub (jsStr "palindrom") lowerQuery then some true else none
  let minLength : Option Int :=
    match regexScan (matchLitDigitsAt (jsStr "longer than ")) lowerQuery with
    | some n => some (Int.ofNat n + 1)
    | none => none
  let maxLength : Option Int :=
    match regexScan (matchLitDigitsAt (jsStr "shorter than ")) lowerQuery with
    | some n => some (Int.ofNat n - 1)
    | none => none
  let contains0 : Option Nat := regexScan matchContainAt lowerQuery
  let containsChar : Option Nat :=
    if includesSub (jsStr "first vowel") lowerQuery then some 0x61 else contains0
  { word_count := wordCount
    is_palindrome := isPal
    min_length := minLength
    max_length := maxLength
    contains_character := containsChar }

/-! ## `parseInt` and the record store -/

/-- Value of a hexadecimal digit unit, if it is one. -/
def hexDigitVal (u : Nat) : Option Nat :=
  if 0x30 ≤ u && u ≤ 0x39 then some (u - 0x30)
  else if 0x61 ≤ u && u ≤ 0x66 then some (u - 0x61 + 10)
  else if 0x41 ≤ u && u ≤ 0x46 then some (u - 0x41 + 10)
  else none

def isHexDigit (u : Nat) : Bool := (hexDigitVal u).isSome

def hexDigitsVal (ds : List Nat) : Nat :=
  ds.foldl (fun a u => a * 16 + ((hexDigitVal u).getD 0)) 0

/-- Decimal tail of `parseInt`: longest digit run at the front; `NaN`
(here `none`) if it is empty. -/
def parseIntDec (sign : Int) (l : List Nat) : Option Int :=
  let ds := l.takeWhile isAsciiDigit
  if ds.isEmpty then none else some (sign * Int.ofNat (digitsVal ds))

/-- JavaScript `parseInt(s)` (radix argument omitted, as in the source):
strip leading whitespace, optional sign, `0x`/`0X` switches to
hexadecimal, otherwise the longest leading decimal digit run; `NaN` when
no digit follows.  `none` models `NaN`. -/
def jsParseInt (s : JsString) : Option Int :=
  let s1 := s.dropWhile isJsWhitespace
  let signAndRest : Int × List Nat :=
    match s1 with
    | 0x2D :: r => (-1, r)
    | 0x2B :: r => (1, r)
    | r => (1, r)
  let sign := signAndRest.1
  match signAndRest.2 with
  | 0x30 :: x :: r =>
    if x = 0x78 || x = 0x58 then
      let ds := r.takeWhile isHexDigit
      if ds.isEmpty then none else some (sign * Int.ofNat (hexDigitsVal ds))
    else parseIntDec sign (0x30 :: x :: r)
  | r => parseIntDec sign r

/-- A persisted document (`StringModel`): `_id` is the hex digest,
`value` the raw string, plus the computed properties.  `created_at`
is a logical timestamp (documents are appended in creation order). -/
structure StoredString where
  id : JsString
  value : JsString
  props : Properties
  created_at : Nat
deriving DecidableEq

/-- The MongoDB collection behind `StringModel`, in insertion order. -/
abbrev Store := List StoredString

/-- `document.save()`: insert unless the primary key `_id` or the
`unique: true` field `value` is already taken, in which case the driver
raises a duplicate-key error (`.error`). -/
def saveRecord (store : Store) (r : StoredString) : Except Unit Store :=
  if store.any (fun x => x.id == r.id || x.value == r.value) then .error ()
  else .ok (store ++ [r])

/-- `StringModel.findById(hash)`. -/
def findById (store : Store) (h : JsString) : Option StoredString :=
  store.find? (fun r => r.id == h)

/-- `StringModel.findOne({ value })`. -/
def findByValue (store : Store) (v : JsString) : Option StoredString :=
  store.find? (fun r => r.value == v)

/-- Responses of the service, one constructor per distinct outcome the
handlers in src/server.js can produce (payload marshalling elided except
where a claim mentions it). -/
inductive Response where
  | created (r : StoredString)
  | conflict
  | missingField
  | invalidType
  | record (r : StoredString)
  | notFound
  | listOk (recs : List StoredString) (applied : Filters)
  | invalidFilterValue
  | unparsable
  | deleted
  | healthy
  | internalError
  | noRoute
deriving DecidableEq

/-- Second half of the create handler, after the `findById` existence
check has produced `found`: respond 409 on a hit, otherwise `save()`;
a duplicate-key error from `save()` lands in the generic `catch` and
becomes a 500 internal error. -/
def finishCreate (found : Bool) (store : Store) (r : StoredString) :
    Store × Response :=
  if found then (store, .conflict)
  else
    match saveRecord store r with
    | .ok s2 => (s2, .created r)
    | .error _ => (store, .internalError)

/-- `POST /strings` handler body for a string-typed value: compute the
properties, check by id, then save. -/
def createString (hash : JsString → JsString) (store : Store) (v : JsString) :
    Store × Response :=
  let props := computeProperties hash v
  let h := props.sha256_hash
  finishCreate (findById store h).isSome store
    { id := h, value := v, props := props, created_at := store.length }

/-- The create handler's interleaving-sensitive schedule for two
concurrent requests with the same value, starting from an empty store:
both `findById` checks run before either `save()` (both `await` points
yield), then the saves run in order.  Returns the two responses. -/
def raceCreate (hash : JsString → JsString) (v : JsString) :
    Response × Response :=
  let props := computeProperties hash v
  let h := props.sha256_hash
  let store0 : Store := []
  let found1 := (findById store0 h).isSome
  let found2 := (findById store0 h).isSome
  let step1 := finishCreate found1 store0
    { id := h, value := v, props := props, created_at := 0 }
  let step2 := finishCreate found2 step1.1
    { id := h, value := v, props := props, created_at := 1 }
  (step1.2, step2.2)

/-- `decodeURIComponent`, modelled for the inputs this development
exercises: `%XX` escapes decode to a single unit (sufficient for ASCII
escapes; no theorem below feeds it a multi-byte escape sequence or a
malformed escape), all other units pass through. -/
def decodeURIComponent : JsString → JsString
  | [] => []
  | 0x25 :: h1 :: h2 :: rest =>
    match hexDigitVal h1, hexDigitVal h2 with
    | some a, some b => (a * 16 + b) :: decodeURIComponent rest
    | _, _ => 0x25 :: decodeURIComponent (h1 :: h2 :: rest)
  | u :: rest => u :: decodeURIComponent rest

/-- `GET /strings/:string_value` handler: decode the path parameter and
look the record up by raw value. -/
def getStringResponse (store : Store) (v : JsString) : Response :=
  match findByValue store (decodeURIComponent v) with
  | some r => .record r
  | none => .notFound

/-- `DELETE /strings/:string_value` handler (`findOneAndDelete`). -/
def deleteString (store : Store) (v : JsString) : Store × Response :=
  match findByValue store (decodeURIComponent v) with
  | some r => (store.filter (fun x => !(x == r)), .deleted)
  | none => (store, .notFound)

/-- Does a stored record satisfy the MongoDB query the handlers build
from a filter?  (`properties.length` bounds are `$gte`/`$lte`, word
count and palindrome are equality, `contains_character` is
`$exists: true, $gte: 1` on the frequency-map key.) -/
def matchesFilter (f : Filters) (r : StoredString) : Bool :=
  (match f.is_palindrome with
   | none => true
   | some b => r.props.is_palindrome == b) &&
  (match f.min_length with
   | none => true
   | some n => n ≤ (r.props.length : Int)) &&
  (match f.max_length with
   | none => true
   | some n => (r.props.length : Int) ≤ n) &&
  (match f.word_count with
   | none => true
   | some n => (r.props.word_count : Int) == n) &&
  (match f.contains_character with
   | none => true
   | some c =>
     match r.props.character_frequency_map.find? (fun p => p.1 == c) with
     | some p => 1 ≤ p.2
     | none => false)

/-- `find(query).sort({ created_at: -1 })` over an insertion-ordered
store: the matching records, most recently created first. -/
def queryStore (store : Store) (f : Filters) : List StoredString :=
  (store.filter (matchesFilter f)).reverse

/-- The query-string of a request: key-value pairs (`req.query`; for a
repeated key Express keeps an array — not exercised here, the first
binding is used). -/
abbrev SearchParams := List (JsString × JsString)

def getParam (search : SearchParams) (key : JsString) : Option JsString :=
  (search.find? (fun p => p.1 == key)).map (fun p => p.2)

/-- Validation step shared by the three integer query fields of
`GET /strings`: absent is fine, present must `parseInt` to a non-`NaN`
value or the handler returns 400. -/
def parseIntField (o : Option JsString) : Except Unit (Option Int) :=
  match o with
  | none => .ok none
  | some s =>
    match jsParseInt s with
    | none => .error ()
    | some n => .ok (some n)

/-- Validation of `contains_character`: present must have `length === 1`
(one UTF-16 unit). -/
def parseCharField (o : Option JsString) : Except Unit (Option Nat) :=
  match o with
  | none => .ok none
  | some s =>
    match s with
    | [u] => .ok (some u)
    | _ => .error ()

/-- `GET /strings` handler: each supplied filter field is validated in
source order with an early 400 return; the surviving filter is applied
to the store. -/
def listStrings (store : Store) (search : SearchParams) : Response :=
  let ip : Option Bool :=
    (getParam search (jsStr "is_palindrome")).map (fun s => s == jsStr "true")
  match parseIntField (getParam search (jsStr "min_length")) with
  | .error _ => .invalidFilterValue
  | .ok minl =>
    match parseIntField (getParam search (jsStr "max_length")) with
    | .error _ => .invalidFilterValue
    | .ok maxl =>
      match parseIntField (getParam search (jsStr "word_count")) with
      | .error _ => .invalidFilterValue
      | .ok wc =>
        match parseCharField (getParam search (jsStr "contains_character")) with
        | .error _ => .invalidFilterValue
        | .ok cc =>
          let f : Filters :=
            { word_count := wc, is_palindrome := ip, min_length := minl,
              max_length := maxl, contains_character := cc }
          .listOk (queryStore store f) f

/-- `GET /strings/filter-by-natural-language` handler: missing or empty
`query` is 400 MissingField (`!nlQuery`), an interpreter result with no
fields is 400 UnparsableQuery, otherwise the parsed filter is applied. -/
def nlFilter (store : Store) (search : SearchParams) : Response :=
  match getParam search (jsStr "query") with
  | none => .missingField
  | some q =>
    if q.isEmpty then .missingField
    else
      let parsed := parseNaturalLanguage q
      if parsed.isEmptyF then .unparsable
      else .listOk (queryStore store parsed) parsed

/-! ## Routing

Express dispatches a request to the first registered route whose method
and path match; `:param` segments match any single path segment.  The
table lists the routes of src/server.js in registration order. -/

inductive Method where
  | get
  | post
  | del
deriving DecidableEq

inductive HandlerId where
  | createStringH
  | getStringH
  | listStringsH
  | nlFilterH
  | deleteStringH
  | healthH
deriving DecidableEq

inductive RoutePat where
  | lit (s : JsString)
  | param
deriving DecidableEq

/-- The routes of src/server.js, in registration (source) order. -/
def routeTable : List (Method × List RoutePat × HandlerId) :=
  [(.post, [.lit (jsStr "strings")], .createStringH),
   (.get, [.lit (jsStr "strings"), .param], .getStringH),
   (.get, [.lit (jsStr "strings")], .listStringsH),
   (.get, [.lit (jsStr "strings"), .lit (jsStr "filter-by-natural-language")],
     .nlFilterH),
   (.del, [.lit (jsStr "strings"), .param], .deleteStringH),
   (.get, [.lit (jsStr "health")], .healthH)]

/-- Match a route pattern against path segments, collecting the segments
bound by `:param` positions. -/
def matchSegs : List RoutePat → List JsString → Option (List JsString)
  | [], [] => some []
  | RoutePat.lit s :: ps, seg :: rest =>
    if s == seg then matchSegs ps rest else none
  | RoutePat.param :: ps, seg :: rest =>
    match matchSegs ps rest with
    | some binds => some (seg :: binds)
    | none => none
  | _, _ => none

/-- First matching route wins (Express middleware order). -/
def dispatch (m : Method) (path : List JsString) :
    Option (HandlerId × List JsString) :=
  routeTable.findSome? (fun route =>
    if route.1 == m then
      match matchSegs route.2.1 path with
      | some binds => some (route.2.2, binds)
      | none => none
    else none)

/-- The body of a `POST /strings` request: absent, a string, or a
non-string JSON value. -/
inductive BodyVal where
  | str (s : JsString)
  | nonString
deriving DecidableEq

structure Request where
  meth : Method
  path : List JsString
  search : SearchParams
  body : Option BodyVal

/-- `POST /strings` including the body validation (missing value → 400,
non-string value → 422). -/
def createHandler (hash : JsString → JsString) (store : Store)
    (body : Option BodyVal) : Store × Response :=
  match body with
  | none => (store, .missingField)
  | some .nonString => (store, .invalidType)
  | some (.str v) => createString hash store v

/-- Run a dispatched handler. -/
def runHandler (hash : JsString → JsString) (store : Store) (h : HandlerId)
    (binds : List JsString) (req : Request) : Store × Response :=
  match h with
  | .createStringH => createHandler hash store req.body
  | .getStringH => (store, getStringResponse store (binds.headD []))
  | .listStringsH => (store, listStrings store req.search)
  | .nlFilterH => (store, nlFilter store req.search)
  | .deleteStringH => deleteString store (binds.headD [])
  | .healthH => (store, .healthy)

/-- Full request handling: route dispatch, then the matched handler. -/
def handleRequest (hash : JsString → JsString) (store : Store)
    (req : Request) : Store × Response :=
  match dispatch req.meth req.path with
  | none => (store, .noRoute)
  | some (h, binds) => runHandler hash store h binds req

/-! ## Spec-side definitions

These follow the wording of the specification (for the claims comparing
the code against the spec's own phrasing). -/

/-- Modelled from the spec: `lowercase_no_whitespace(s)` as a sequence of
code points — lowercase the string, then remove every whitespace
character, with the elementary character taken to be one Unicode code
point as §4.1 of the spec demands. -/
def lowercaseNoWhitespaceCps (s : JsString) : List Nat :=
  (codePoints (jsToLower s)).filter (fun c => !(isJsWhitespace c))

/-- Modelled from the spec: the palindrome normalization at the
granularity the code actually uses — lowercase, strip whitespace, as a
UTF-16 unit sequence. -/
def lowercaseNoWhitespaceUnits (s : JsString) : JsString :=
  (jsToLower s).filter (fun u => !(isJsWhitespace u))

/-- Sum of the occurrence counts of a frequency map. -/
def sumVals : List (Nat × Nat) → Nat
  | [] => 0
  | p :: r => p.2 + sumVals r

/-! ## Lemmas about the frequency map and the JS `Set` model -/

theorem bump_keys (m : List (Nat × Nat)) (c : Nat) :
    (bump m c).map Prod.fst = setAdd (m.map Prod.fst) c := by
  induction m with
  | nil => simp [bump, setAdd]
  | cons p rest ih =>
    obtain ⟨k, v⟩ := p
    by_cases hkc : k = c
    · subst hkc
      simp [bump, setAdd]
    · simp only [bump, hkc, if_false, List.map_cons]
      rw [ih]
      by_cases hc : c ∈ rest.map Prod.fst
      · simp [setAdd, hc, List.mem_cons, hkc, Ne.symm hkc]
      · simp [setAdd, hc, List.mem_cons, hkc, Ne.symm hkc]

theorem foldl_bump_keys (l : List Nat) (m : List (Nat × Nat)) :
    ((l.foldl bump m).map Prod.fst) = l.foldl setAdd (m.map Prod.fst) := by
  induction l generalizing m with
  | nil => rfl
  | cons c rest ih =>
    simp only [List.foldl_cons]
    rw [ih, bump_keys]

theorem bump_sum (m : List (Nat × Nat)) (c : Nat) :
    sumVals (bump m c) = sumVals m + 1 := by
  induction m with
  | nil => simp [bump, sumVals]
  | cons p rest ih =>
    obtain ⟨k, v⟩ := p
    by_cases hkc : k = c
    · subst hkc
      simp [bump, sumVals]
      omega
    · simp [bump, hkc, sumVals, ih]
      omega

theorem foldl_bump_sum (l : List Nat) (m : List (Nat × Nat)) :
    sumVals (l.foldl bump m) = sumVals m + l.length := by
  induction l generalizing m with
  | nil => rfl
  | cons c rest ih =>
    simp only [List.foldl_cons, List.length_cons]
    rw [ih, bump_sum]
    omega

theorem mem_setAdd (s : List Nat) (c a : Nat) :
    a ∈ setAdd s c ↔ a ∈ s ∨ a = c := by
  by_cases hc : c ∈ s
  · simp only [setAdd, hc, if_true]
    constructor
    · exact Or.inl
    · rintro (h | rfl)
      · exact h
      · exact hc
  · simp [setAdd, hc, List.mem_append]

theorem mem_foldl_setAdd (l acc : List Nat) (a : Nat) :
    a ∈ l.foldl setAdd acc ↔ a ∈ acc ∨ a ∈ l := by
  induction l generalizing acc with
  | nil => simp
  | cons c rest ih =>
    simp only [List.foldl_cons, ih, mem_setAdd, List.mem_cons]
    constructor
    · rintro ((h | rfl) | h)
      · exact Or.inl h
      · exact Or.inr (Or.inl rfl)
      · exact Or.inr (Or.inr h)
    · rintro (h | rfl | h)
      · exact Or.inl (Or.inl h)
      · exact Or.inl (Or.inr rfl)
      · exact Or.inr h

theorem setAdd_nodup (s : List Nat) (c : Nat) (hs : s.Nodup) :
    (setAdd s c).Nodup := by
  by_cases hc : c ∈ s
  · simpa [setAdd, hc] using hs
  · rw [setAdd, if_neg hc, ← List.concat_eq_append]
    exact List.Nodup.concat hc hs

theorem foldl_setAdd_nodup (l acc : List Nat) (hacc : acc.Nodup) :
    (l.foldl setAdd acc).Nodup := by
  induction l generalizing acc with
  | nil => exact hacc
  | cons c rest ih =>
    exact ih _ (setAdd_nodup _ _ hacc)

theorem jsSetElems_length (l : List Nat) :
    (jsSetElems l).length = l.toFinset.card := by
  have h1 : (jsSetElems l).Nodup := foldl_setAdd_nodup _ _ List.nodup_nil
  have h2 : (jsSetElems l).toFinset = l.toFinset := by
    ext a
    simp [List.mem_toFinset, jsSetElems, mem_foldl_setAdd]
  rw [← List.toFinset_card_of_nodup h1, h2]

theorem jsLowerUnit_ws {u : Nat} (h : isJsWhitespace u = true) :
    jsLowerUnit u = u := by
  simp only [isJsWhitespace, jsWsChars, List.contains, List.elem_eq_mem,
    decide_eq_true_eq, List.mem_cons, List.not_mem_nil, or_false] at h
  unfold jsLowerUnit
  split
  · rename_i hcond
    rw [Bool.and_eq_true, decide_eq_true_eq, decide_eq_true_eq] at hcond
    omega
  · rfl

/-! ## Claim theorems -/

/-- C1 counterexample: on the single-code-point string U+1F600 (the
UTF-16 unit pair D83D DE00), `length` is 2 — the number of UTF-16 code
units — while the value has exactly 1 Unicode code point, so the claim
that `length equals the number of code points of the value (not UTF-16
code units)` is false. -/
theorem c1_counterexample :
    (computeProperties id [0xD83D, 0xDE00]).length = 2 ∧
    (codePoints [0xD83D, 0xDE00]).length = 1 := by
  decide

/-- C1, amended: `length` equals the number of UTF-16 code units of the
value (JavaScript `str.length`), while `unique_characters` equals the
number of distinct Unicode code points and the keys of
`character_frequency_map` are exactly the code points occurring in the
value. -/
theorem c1_amended_analyze_units_and_code_points
    (hash : JsString → JsString) (s : JsString) :
    (computeProperties hash s).length = s.length ∧
    (computeProperties hash s).unique_characters = (codePoints s).toFinset.card ∧
    ∀ c, c ∈ (computeProperties hash s).character_frequency_map.map Prod.fst ↔
      c ∈ codePoints s := by
  refine ⟨rfl, ?_, ?_⟩
  · show (jsSetElems (codePoints s)).length = _
    exact jsSetElems_length _
  · intro c
    show c ∈ ((codePoints s).foldl bump []).map Prod.fst ↔ _
    rw [foldl_bump_keys]
    simpa [jsSetElems] using mem_foldl_setAdd (codePoints s) [] c

/-- C2 counterexample: for the string U+1F600 (units D83D DE00) the
normalized code-point sequence is the one-point sequence [1F600], equal
to its own reversal, yet `is_palindrome` is `false` — the code reverses
the UTF-16 unit sequence (`split('')`), which tears the surrogate pair
apart.  So the claimed iff against the code-point reversal fails. -/
theorem c2_counterexample :
    (computeProperties id [0xD83D, 0xDE00]).is_palindrome = false ∧
    lowercaseNoWhitespaceCps [0xD83D, 0xDE00] =
      (lowercaseNoWhitespaceCps [0xD83D, 0xDE00]).reverse := by
  decide

/-- C2, amended: `is_palindrome` is true iff the normalization of `s`
(lowercase, then remove every whitespace character) equals the reversal
of that normalized UTF-16 code-unit sequence (not the code-point
sequence); in particular the empty string and all-whitespace strings are
palindromes. -/
theorem c2_amended_palindrome_unit_reversal
    (hash : JsString → JsString) (s : JsString) :
    ((computeProperties hash s).is_palindrome = true ↔
      lowercaseNoWhitespaceUnits s = (lowercaseNoWhitespaceUnits s).reverse) ∧
    ((∀ u ∈ s, isJsWhitespace u = true) →
      (computeProperties hash s).is_palindrome = true) := by
  constructor
  · show (lowercaseNoWhitespaceUnits s ==
      (lowercaseNoWhitespaceUnits s).reverse) = true ↔ _
    exact beq_iff_eq
  · intro h
    show ((jsToLower s).filter (fun u => !(isJsWhitespace u)) ==
      ((jsToLower s).filter (fun u => !(isJsWhitespace u))).reverse) = true
    have hnil : (jsToLower s).filter (fun u => !(isJsWhitespace u)) = [] := by
      rw [List.filter_eq_nil_iff]
      intro a ha
      rcases List.mem_map.mp ha with ⟨u, hu, rfl⟩
      simp [jsLowerUnit_ws (h u hu), h u hu]
    rw [hnil]
    rfl

/-- C2 witness: a concrete all-whitespace string is a palindrome. -/
theorem c2_whitespace_witness :
    (computeProperties id (jsStr "  ")).is_palindrome = true :=
  (c2_amended_palindrome_unit_reversal id (jsStr "  ")).2 (by decide)

/-- C9: the character-frequency map has exactly `unique_characters`
keys, and its counts sum to the number of Unicode code points of the
input. -/
theorem c9_freq_map_totals (hash : JsString → JsString) (s : JsString) :
    (computeProperties hash s).character_frequency_map.length =
      (computeProperties hash s).unique_characters ∧
    sumVals (computeProperties hash s).character_frequency_map =
      (codePoints s).length := by
  constructor
  · show ((codePoints s).foldl bump []).length = (jsSetElems (codePoints s)).length
    have h2 : (((codePoints s).foldl bump []).map Prod.fst).length
        = ((codePoints s).foldl setAdd []).length := by
      rw [foldl_bump_keys]
      rfl
    simpa [jsSetElems, List.length_map] using h2
  · show sumVals ((codePoints s).foldl bump []) = _
    rw [foldl_bump_sum]
    simp [sumVals]

/-- C3: if the store satisfies the content-addressing invariant
(`id = hash(value)`) and already holds exactly one record for value `v`,
then `create(v)` responds `Conflict` and leaves the store unchanged, so
it still holds exactly one record for `v`. -/
theorem c3_create_conflict_on_existing_value
    (hash : JsString → JsString) (store : Store) (v : JsString)
    (hinv : ∀ r ∈ store, r.id = hash r.value)
    (hone : (store.filter (fun r => r.value == v)).length = 1) :
    createString hash store v = (store, Response.conflict) ∧
    ((createString hash store v).1.filter (fun r => r.value == v)).length = 1 := by
  have hex : ∃ r ∈ store, r.value = v := by
    cases hf : store.filter (fun r => r.value == v) with
    | nil => rw [hf] at hone; simp at hone
    | cons r rest =>
      have hr : r ∈ store.filter (fun x => x.value == v) := by
        rw [hf]; exact List.mem_cons_self r rest
      have h1 := List.mem_filter.mp hr
      exact ⟨r, h1.1, by simpa using h1.2⟩
  obtain ⟨r, hrs, hrv⟩ := hex
  have hfound : (findById store (computeProperties hash v).sha256_hash).isSome = true := by
    rw [findById, List.find?_isSome]
    refine ⟨r, hrs, ?_⟩
    have hh : (computeProperties hash v).sha256_hash = hash v := rfl
    rw [hh]
    simp [hinv r hrs, hrv]
  have hc : createString hash store v = (store, Response.conflict) := by
    simp only [createString, finishCreate]
    rw [hfound]
    simp
  exact ⟨hc, by rw [hc]; exact hone⟩

/-- Store holding one record for "racecar", with identity as the hash. -/
def c3Store : Store :=
  [{ id := jsStr "racecar", value := jsStr "racecar",
     props := computeProperties (fun x => x) (jsStr "racecar"), created_at := 0 }]

/-- C3 witness: creating "racecar" when it is already stored yields
Conflict and the store keeps exactly one record for it. -/
theorem c3_conflict_witness :
    createString (fun x => x) c3Store (jsStr "racecar") = (c3Store, Response.conflict) ∧
    ((createString (fun x => x) c3Store (jsStr "racecar")).1.filter
      (fun r => r.value == jsStr "racecar")).length = 1 :=
  c3_create_conflict_on_existing_value (fun x => x) c3Store (jsStr "racecar")
    (by decide) (by decide)

/-- C5: under the interleaving in which both existence checks run before
either insert, the first create succeeds and the second hits the unique
index inside `save()`, whose duplicate-key error the generic `catch`
turns into an internal error — not the `Conflict` the claim requires. -/
theorem c5_race_loser_gets_internal_error
    (hash : JsString → JsString) (v : JsString) :
    raceCreate hash v =
      (Response.created
        { id := (computeProperties hash v).sha256_hash, value := v,
          props := computeProperties hash v, created_at := 0 },
       Response.internalError) := by
  simp [raceCreate, finishCreate, findById, saveRecord]

/-- The path of the natural-language route, as a literal segment. -/
def fbnlSeg : JsString := jsStr "filter-by-natural-language"

/-- C4: `GET /strings/filter-by-natural-language` is captured by the
earlier-registered `GET /strings/:string_value` route with the parameter
bound to the literal segment, so for every store and query string the
response is the get-by-value handler's — `NotFound` unless a record
whose raw value is `filter-by-natural-language` exists — and the
interpreter route never runs. -/
theorem c4_nl_route_shadowed_by_get_by_value :
    dispatch Method.get [jsStr "strings", fbnlSeg] =
      some (HandlerId.getStringH, [fbnlSeg]) ∧
    (∀ (hash : JsString → JsString) (store : Store) (search : SearchParams)
        (body : Option BodyVal),
      handleRequest hash store
        { meth := Method.get, path := [jsStr "strings", fbnlSeg],
          search := search, body := body } =
        (store, getStringResponse store fbnlSeg)) ∧
    (∀ store : Store,
      getStringResponse store fbnlSeg = Response.notFound ↔
        ∀ r ∈ store, r.value ≠ fbnlSeg) := by
  refine ⟨by decide, ?_, ?_⟩
  · intro hash store search body
    rfl
  · intro store
    unfold getStringResponse findByValue
    rw [show decodeURIComponent fbnlSeg = fbnlSeg from by decide]
    cases hf : store.find? (fun r => r.value == fbnlSeg) with
    | some r =>
      constructor
      · intro h
        exact Response.noConfusion h
      · intro hall
        have hv : r.value = fbnlSeg := by
          have h1 := List.find?_some hf
          simpa using h1
        exact absurd hv (hall r (List.mem_of_find?_eq_some hf))
    | none =>
      constructor
      · intro _ r hr
        have h1 := List.find?_eq_none.mp hf r hr
        simpa using h1
      · intro _
        rfl

/-- C6: the interpreter's three reference examples — "all single word
palindromic strings" parses to exactly `{word_count: 1, is_palindrome:
true}`, "strings longer than 10 characters" to exactly `{min_length:
11}`, and "xyz" fires zero rules, so the natural-language endpoint fails
with UnparsableQuery. -/
theorem c6_interpreter_examples :
    parseNaturalLanguage (jsStr "all single word palindromic strings") =
      { word_count := some 1, is_palindrome := some true, min_length := none,
        max_length := none, contains_character := none } ∧
    parseNaturalLanguage (jsStr "strings longer than 10 characters") =
      { word_count := none, is_palindrome := none, min_length := some 11,
        max_length := none, contains_character := none } ∧
    (parseNaturalLanguage (jsStr "xyz")).isEmptyF = true ∧
    ∀ store : Store,
      nlFilter store [(jsStr "query", jsStr "xyz")] = Response.unparsable := by
  refine ⟨by decide, by decide, by decide, fun store => rfl⟩

/-- C7: whenever the lowercased query contains "first vowel", the
interpreter's final `contains_character` is the hardcoded constant 'a'
(0x61) — overwriting whatever the `contain(s|ing)` rule may have set,
since that rule runs earlier. -/
theorem c7_first_vowel_overwrites_contains (q : JsString)
    (h : includesSub (jsStr "first vowel") (jsToLower q) = true) :
    (parseNaturalLanguage q).contains_character = some 0x61 := by
  simp [parseNaturalLanguage, h]

/-- C7 witness: on a query where the `contain...` rule captures 'z'
(0x7A), the "first vowel" rule still forces the final value to 'a'. -/
theorem c7_overwrite_witness :
    includesSub (jsStr "first vowel")
      (jsToLower (jsStr "strings containing the letter z that have the first vowel"))
      = true ∧
    regexScan matchContainAt
      (jsToLower (jsStr "strings containing the letter z that have the first vowel"))
      = some 0x7A ∧
    (parseNaturalLanguage
      (jsStr "strings containing the letter z that have the first vowel")).contains_character
      = some 0x61 :=
  ⟨by decide, by decide, c7_first_vowel_overwrites_contains _ (by decide)⟩

/-- C8: if any supplied field of the structured filter is invalid — an
integer field whose `parseInt` is NaN, or a `contains_character` that is
not exactly one character — then `GET /strings` answers
InvalidFilterValue, for every store (no store query is performed: the
result is independent of the store's contents). -/
theorem c8_invalid_filter_fields_rejected (store : Store) (search : SearchParams)
    (h :
      (∃ s, getParam search (jsStr "min_length") = some s ∧ jsParseInt s = none) ∨
      (∃ s, getParam search (jsStr "max_length") = some s ∧ jsParseInt s = none) ∨
      (∃ s, getParam search (jsStr "word_count") = some s ∧ jsParseInt s = none) ∨
      (∃ s, getParam search (jsStr "contains_character") = some s ∧
        (codePoints s).length ≠ 1)) :
    listStrings store search = Response.invalidFilterValue := by
  unfold listStrings
  rcases h with ⟨s, hs, hp⟩ | ⟨s, hs, hp⟩ | ⟨s, hs, hp⟩ | ⟨s, hs, hp⟩
  · rw [hs]
    simp [parseIntField, hp]
  · cases hmin : parseIntField (getParam search (jsStr "min_length")) with
    | error e => simp
    | ok minl =>
      rw [hs]
      simp [parseIntField, hp]
  · cases hmin : parseIntField (getParam search (jsStr "min_length")) with
    | error e => simp
    | ok minl =>
      cases hmax : parseIntField (getParam search (jsStr "max_length")) with
      | error e => simp
      | ok maxl =>
        rw [hs]
        simp [parseIntField, hp]
  · cases hmin : parseIntField (getParam search (jsStr "min_length")) with
    | error e => simp
    | ok minl =>
      cases hmax : parseIntField (getParam search (jsStr "max_length")) with
      | error e => simp
      | ok maxl =>
        cases hwc : parseIntField (getParam search (jsStr "word_count")) with
        | error e => simp
        | ok wc =>
          rw [hs]
          rcases s with _ | ⟨u, _ | ⟨u2, rest⟩⟩
          · simp [parseCharField]
          · exact absurd rfl hp
          · simp [parseCharField]

/-- C8 witness: a non-integer `word_count` is rejected with
InvalidFilterValue on the empty store. -/
theorem c8_reject_witness :
    listStrings [] [(jsStr "word_count", jsStr "abc")] =
      Response.invalidFilterValue :=
  c8_invalid_filter_fields_rejected [] [(jsStr "word_count", jsStr "abc")]
    (Or.inr (Or.inr (Or.inl ⟨jsStr "abc", by decide, by decide⟩)))

/-- C10: a supplied `is_palindrome` query parameter is never rejected:
the applied filter's `is_palindrome` is `true` exactly when the
parameter is the literal string "true" and `false` for every other
value, and the request succeeds. -/
theorem c10_is_palindrome_param_never_rejected (store : Store) (s : JsString) :
    listStrings store [(jsStr "is_palindrome", s)] =
      Response.listOk
        (queryStore store
          { word_count := none, is_palindrome := some (s == jsStr "true"),
            min_length := none, max_length := none, contains_character := none })
        { word_count := none, is_palindrome := some (s == jsStr "true"),
          min_length := none, max_length := none, contains_character := none } := by
  rfl
